import Mathlib

/-!
Shallow embedding of the trace-discovery / removal engine of the `rust_yu`
uninstaller (modules `scanner`, `cleaner`, `lister` and `common/utils`),
together with theorems settling the frozen claims C1-C10 about it.

Conventions of the embedding:
* Rust `String` is Lean `String`; since several core `String` operations do
  not reduce inside the kernel, the handful of primitives the code needs
  (`to_uppercase`, `to_lowercase`, `starts_with`, `contains`, `trim`,
  byte slicing, integer parsing) are re-implemented on the underlying
  character list.  All paths involved are ASCII, where byte indexing and
  character indexing agree.
* OS state (filesystem, registry, SQLite cache file) is passed explicitly
  as a `World` / `CacheDb` value; the OS calls of the source are modelled
  as total operations on that state.
* External collaborators that are out of the repository (the `chrono` date
  parser, the skim fuzzy matcher, the SipHash `DefaultHasher`, icon
  rasterization, the bounded directory-size walk with its wall-clock
  budget) are fields of explicit environment records, so every theorem is
  quantified over their behaviour.
-/

deriving instance DecidableEq for Except

/-! ## String primitives (kernel-computable replacements for Rust `str` methods) -/

/-- Rust `str::to_uppercase` (ASCII-relevant part, via `Char.toUpper`). -/
def strUpper (s : String) : String := ⟨s.data.map Char.toUpper⟩

/-- Rust `str::to_lowercase` (ASCII-relevant part, via `Char.toLower`). -/
def strLower (s : String) : String := ⟨s.data.map Char.toLower⟩

/-- Rust `str::starts_with`. -/
def strStarts (s pre : String) : Bool := pre.data.isPrefixOf s.data

/-- Substring containment on character lists. -/
def chContains (p : List Char) : List Char → Bool
  | [] => p.isEmpty
  | c :: rest => p.isPrefixOf (c :: rest) || chContains p rest

/-- Rust `str::contains` with a string pattern. -/
def strContainsSub (s pat : String) : Bool := chContains pat.data s.data

/-- Rust `str::trim` (whitespace on both ends). -/
def strTrim (s : String) : String :=
  ⟨((s.data.dropWhile Char.isWhitespace).reverse.dropWhile Char.isWhitespace).reverse⟩

/-- Rust byte slicing `&s[n..]`; on the ASCII paths that occur here it agrees
with dropping `n` characters. -/
def strDrop (s : String) (n : Nat) : String := ⟨s.data.drop n⟩

/-- Rust `str::parse::<u32>` restricted to plain digit strings (the only shape
the cache metadata writer produces); `none` on anything unparseable. -/
def parse_u32 (s : String) : Option Nat :=
  if s.data.isEmpty then none
  else
    (s.data.foldl
      (fun acc c => acc.bind fun n => if c.isDigit then some (n * 10 + (c.toNat - 48)) else none)
      (some 0)).filter (fun n => n < 4294967296)

/-- Byte-lexicographic order on strings (what Rust `String::cmp` and a
case-folded SQLite `ORDER BY` use); on UTF-8, byte order equals code-point
order, which is what this computes. -/
def chLe : List Char → List Char → Bool
  | [], _ => true
  | _ :: _, [] => false
  | a :: xs, b :: ys => if a = b then chLe xs ys else decide (a < b)

/-! ## Scanner models (`src/modules/scanner/models.rs`) -/

/-- Trace kinds; `ScheduledTask`, `Service`, `Driver` are reserved and unused
by the scanners. -/
inductive TraceType where
  | RegistryKey
  | RegistryValue
  | File
  | Shortcut
  | AppData
  | ScheduledTask
  | Service
  | Driver
deriving DecidableEq, Repr

/-- Match confidence.  The Rust enum derives `PartialOrd, Ord`, which orders by
declaration position: `High < Medium < Low` in the derived order. -/
inductive Confidence where
  | High
  | Medium
  | Low
deriving DecidableEq, Repr

/-- Discriminant of the derived `Ord` on `Confidence` (declaration order). -/
def Confidence.discr : Confidence → Nat
  | .High => 0
  | .Medium => 1
  | .Low => 2

/-- Rust `Confidence::cmp` as produced by `derive(Ord)`. -/
def Confidence.cmp (a b : Confidence) : Ordering := compare a.discr b.discr

/-- One discoverable artifact (`struct Trace`).  The Rust field `exists` is a
reserved token in Lean and is embedded as `exists_`. -/
structure Trace where
  id : String
  program_name : String
  trace_type : TraceType
  path : String
  description : String
  size : Option Nat
  is_critical : Bool
  confidence : Confidence
  exists_ : Bool
deriving DecidableEq, Repr

/-! ## Error type (`src/modules/common/error.rs`) -/

/-- The crate error enum `UninstallerError`; each constructor carries the
formatted message payload. -/
inductive UninstallerError where
  | Registry (s : String)
  | FileSystem (s : String)
  | Msi (s : String)
  | StoreApp (s : String)
  | PermissionDenied (s : String)
  | CriticalSystemItem (s : String)
  | NotFound (s : String)
  | Com (s : String)
  | Other (s : String)
  | Timeout (s : String)
  | Serde (s : String)
deriving DecidableEq, Repr

/-- The `thiserror`-generated `Display` implementation (`e.to_string()`). -/
def UninstallerError.display : UninstallerError → String
  | .Registry s => "注册表错误: " ++ s
  | .FileSystem s => "文件系统错误: " ++ s
  | .Msi s => "MSI 错误: " ++ s
  | .StoreApp s => "商店应用错误: " ++ s
  | .PermissionDenied s => "权限不足: " ++ s
  | .CriticalSystemItem s => "关键系统项: " ++ s
  | .NotFound s => "未找到: " ++ s
  | .Com s => "COM 错误: " ++ s
  | .Other s => "其他错误: " ++ s
  | .Timeout s => "超时: " ++ s
  | .Serde s => "序列化错误: " ++ s

/-! ## Safety Gate (`src/modules/cleaner/safety.rs`) -/

/-- Critical filesystem-path denylist `CRITICAL_PATHS`. -/
def CRITICAL_PATHS : List String :=
  ["C:\\Windows",
   "C:\\Windows\\System32",
   "C:\\Windows\\SysWOW64",
   "C:\\Windows\\WinSxS",
   "C:\\Windows\\INF",
   "C:\\Windows\\DriverStore",
   "C:\\Windows\\System32\\DriverStore"]

/-- Critical registry-path denylist `CRITICAL_REGISTRY_PATHS`.  Note that
several entries are mixed-case. -/
def CRITICAL_REGISTRY_PATHS : List String :=
  ["HKLM\\SYSTEM",
   "HKLM\\SOFTWARE\\Microsoft\\Windows NT\\CurrentVersion",
   "HKLM\\SOFTWARE\\Microsoft\\Windows\\CurrentVersion\\Run",
   "HKLM\\SOFTWARE\\Microsoft\\Windows\\CurrentVersion\\RunOnce",
   "HKLM\\SOFTWARE\\WOW6432Node\\Microsoft\\Windows\\CurrentVersion\\Run",
   "HKCR\\*",
   "HKLM\\BOOT",
   "HKLM\\SAM",
   "HKLM\\SECURITY"]

/-- `is_critical_path`: uppercases the path AND the denylist entry before the
starts-with test. -/
def is_critical_path (path : String) : Bool :=
  let path_upper := strUpper path
  CRITICAL_PATHS.any fun critical => strStarts path_upper (strUpper critical)

/-- `is_critical_registry`: uppercases only the path; the denylist entry is
compared verbatim (`path_upper.starts_with(critical)` in the source). -/
def is_critical_registry (path : String) : Bool :=
  let path_upper := strUpper path
  CRITICAL_REGISTRY_PATHS.any fun critical => strStarts path_upper critical

/-- `pre_delete_check`: rejects traces already flagged critical, then applies
the kind-specific denylist check. -/
def pre_delete_check (trace : Trace) : Except UninstallerError Unit :=
  if trace.is_critical then
    .error (.CriticalSystemItem ("该项被标记为关键系统项: " ++ trace.path))
  else
    match trace.trace_type with
    | .RegistryKey | .RegistryValue =>
        if is_critical_registry trace.path then
          .error (.CriticalSystemItem "不能删除关键系统注册表项")
        else .ok ()
    | .File | .AppData | .Shortcut =>
        if is_critical_path trace.path then
          .error (.CriticalSystemItem "不能删除关键系统目录")
        else .ok ()
    | _ => .ok ()

/-! ## Registry-path parsing (`src/modules/common/utils.rs`) -/

/-- Registry hive handles (`winreg::HKEY` predefined roots). -/
inductive Hkey where
  | HKEY_LOCAL_MACHINE
  | HKEY_CURRENT_USER
  | HKEY_CLASSES_ROOT
  | HKEY_USERS
deriving DecidableEq, Repr

/-- `parse_registry_path`: recognizes short and long hive spellings, then
slices the path at byte 5 (byte 4 for the `HKU` arm) regardless of which
spelling matched — exactly as `&path[5..]` / `&path[4..]` do in the source. -/
def parse_registry_path (path : String) : Option (Hkey × String) :=
  let path := strTrim path
  if strStarts path "HKLM\\" || strStarts path "HKEY_LOCAL_MACHINE\\" then
    some (.HKEY_LOCAL_MACHINE, strDrop path 5)
  else if strStarts path "HKCU\\" || strStarts path "HKEY_CURRENT_USER\\" then
    some (.HKEY_CURRENT_USER, strDrop path 5)
  else if strStarts path "HKCR\\" || strStarts path "HKEY_CLASSES_ROOT\\" then
    some (.HKEY_CLASSES_ROOT, strDrop path 5)
  else if strStarts path "HKU\\" || strStarts path "HKEY_USERS\\" then
    some (.HKEY_USERS, strDrop path 4)
  else
    none

/-- `is_system_critical_path` from `common/utils.rs` (used by the scan
orchestrator's post-pass, deliberately separate from the Safety Gate list). -/
def is_system_critical_path (path : String) : Bool :=
  let path_upper := strUpper path
  ["C:\\WINDOWS",
   "C:\\WINDOWS\\SYSTEM32",
   "C:\\WINDOWS\\SYSWOW64",
   "C:\\WINDOWS\\INF",
   "C:\\WINDOWS\\WINSXS",
   "C:\\PROGRAM FILES\\WINDOWS"].any fun p => strStarts path_upper (strUpper p)

/-- `is_critical_registry_path` from `common/utils.rs`; like the Safety Gate's
registry check it compares the uppercased path against the entry verbatim. -/
def is_critical_registry_path (path : String) : Bool :=
  let path_upper := strUpper path
  ["HKLM\\SYSTEM",
   "HKLM\\SOFTWARE\\Microsoft\\Windows NT",
   "HKLM\\SOFTWARE\\Microsoft\\Windows\\CurrentVersion\\RUN",
   "HKCR\\*",
   "HKLM\\BOOT"].any fun p => strStarts path_upper p

/-! ## OS state model for the Cleaner -/

/-- One filesystem object as the cleaner observes it.  `removeError` is the
OS error text a `remove_file` / `remove_dir_all` call would report (`none`
means the removal succeeds); `metaError` is an error from `path.metadata()`.
The oracle fields stand for OS behaviour (permissions and the like) that is
outside the repository. -/
structure FsObject where
  isDir : Bool
  fileSize : Nat
  dirSize : Nat
  removeError : Option String
  metaError : Option String
deriving DecidableEq, Repr

/-- Mutable OS state touched by the cleaner: filesystem objects keyed by path
and registry keys (hive, key path) carrying their value names. -/
structure World where
  fs : List (String × FsObject)
  reg : List ((Hkey × String) × List String)
deriving DecidableEq, Repr

def emptyWorld : World := ⟨[], []⟩

/-- `path.exists()` / object lookup. -/
def World.fsLookup (w : World) (path : String) : Option FsObject :=
  w.fs.lookup path

/-- `std::fs::remove_file`: drop the single entry. -/
def World.fsRemove (w : World) (path : String) : World :=
  { w with fs := w.fs.filter fun e => !(e.1 == path) }

/-- `std::fs::remove_dir_all`: drop the entry and everything below it. -/
def World.fsRemoveTree (w : World) (path : String) : World :=
  { w with fs := w.fs.filter fun e => !(e.1 == path || strStarts e.1 (path ++ "\\")) }

/-- Look up a registry key's value names. -/
def World.regLookup (w : World) (h : Hkey) (keyPath : String) : Option (List String) :=
  w.reg.lookup (h, keyPath)

/-- Delete a registry key and its subtree. -/
def World.regRemoveTree (w : World) (h : Hkey) (keyPath : String) : World :=
  { w with reg := w.reg.filter fun e =>
      !(e.1.1 == h && (e.1.2 == keyPath || strStarts e.1.2 (keyPath ++ "\\"))) }

/-- Delete one value name from a registry key. -/
def World.regRemoveValue (w : World) (h : Hkey) (keyPath value : String) : World :=
  { w with reg := w.reg.map fun e =>
      if e.1.1 == h && e.1.2 == keyPath then (e.1, e.2.filter (fun v => !(v == value))) else e }

/-- Message an `io::Error` of kind `NotFound` renders to (exact text does not
matter to any claim; only the error's presence does). -/
def ioNotFoundText : String := "os error 2"

/-! ## Cleaner (`src/modules/cleaner/*.rs`) -/

/-- Outcome of one removal attempt (`struct CleanResult`). -/
structure CleanResult where
  trace_id : String
  path : String
  success : Bool
  error : Option String
  bytes_freed : Nat
deriving DecidableEq, Repr

/-- `utils::calculate_dir_size`: metadata length for a file (propagating a
metadata error), recursive walk sum for anything else. -/
def calculate_dir_size (w : World) (path : String) : Except String Nat :=
  match w.fsLookup path with
  | none => .ok 0
  | some obj =>
      if !obj.isDir then
        match obj.metaError with
        | some e => .error e
        | none => .ok obj.fileSize
      else .ok obj.dirSize

/-- `cleaner::filesystem::delete_file_trace`.  A missing path is success with
zero bytes; a directory is sized (`calculate_dir_size(..).unwrap_or(0)`) then
removed with `remove_dir_all`; a file is sized via `metadata()?` (an error
there propagates as `UninstallerError::FileSystem`) then removed with
`remove_file`; a removal error yields a failed result. -/
def delete_file_trace (w : World) (trace : Trace) :
    Except UninstallerError CleanResult × World :=
  match w.fsLookup trace.path with
  | none => (.ok ⟨trace.id, trace.path, true, none, 0⟩, w)
  | some obj =>
      if obj.isDir then
        let bytes_freed := ((calculate_dir_size w trace.path).toOption).getD 0
        match obj.removeError with
        | none => (.ok ⟨trace.id, trace.path, true, none, bytes_freed⟩, w.fsRemoveTree trace.path)
        | some e => (.ok ⟨trace.id, trace.path, false, some e, 0⟩, w)
      else
        match obj.metaError with
        | some e => (.error (.FileSystem e), w)
        | none =>
            let bytes_freed := obj.fileSize
            match obj.removeError with
            | none => (.ok ⟨trace.id, trace.path, true, none, bytes_freed⟩, w.fsRemove trace.path)
            | some e => (.ok ⟨trace.id, trace.path, false, some e, 0⟩, w)

/-- `cleaner::shortcuts::delete_shortcut_trace`: missing path is success;
otherwise `remove_file`, never reporting freed bytes. -/
def delete_shortcut_trace (w : World) (trace : Trace) :
    Except UninstallerError CleanResult × World :=
  match w.fsLookup trace.path with
  | none => (.ok ⟨trace.id, trace.path, true, none, 0⟩, w)
  | some obj =>
      match obj.removeError with
      | none => (.ok ⟨trace.id, trace.path, true, none, 0⟩, w.fsRemove trace.path)
      | some e => (.ok ⟨trace.id, trace.path, false, some e, 0⟩, w)

/-- `cleaner::registry::delete_registry_key` via `delete_subkey_all`: a
missing key is `NotFound`, which the source converts to `Ok`. -/
def delete_registry_key (w : World) (h : Hkey) (path : String) :
    Except UninstallerError Unit × World :=
  match w.regLookup h path with
  | some _ => (.ok (), w.regRemoveTree h path)
  | none => (.ok (), w)

/-- Split `path` at its LAST backslash (`rsplitn(2, '\\')`), returning
`(key path, value name)`; `none` when the path has no backslash. -/
def rsplit_value_path (s : String) : Option (String × String) :=
  (go s.data).map fun p => (⟨p.1⟩, ⟨p.2⟩)
where
  go : List Char → Option (List Char × List Char)
    | [] => none
    | c :: rest =>
        match go rest with
        | some (pre, post) => some (c :: pre, post)
        | none => if c = '\\' then some ([], rest) else none

/-- `cleaner::registry::delete_registry_value`: splits off the value name,
opens the parent key with `open_subkey_with_flags` (whose `NotFound` error
propagates through `?` as `UninstallerError::FileSystem`), then deletes the
value, treating a `NotFound` from `delete_value` as success. -/
def delete_registry_value (w : World) (h : Hkey) (path : String) :
    Except UninstallerError Unit × World :=
  match rsplit_value_path path with
  | none => (.error (.Registry "无效的注册表值路径"), w)
  | some (key_path, value_name) =>
      match w.regLookup h key_path with
      | none => (.error (.FileSystem ioNotFoundText), w)
      | some vals =>
          if vals.contains value_name then (.ok (), w.regRemoveValue h key_path value_name)
          else (.ok (), w)

/-- Conversion of a registry deletion outcome into a `CleanResult` (the
`match result` step of `delete_registry_trace`; registry deletions never
report freed bytes). -/
def registry_result (trace : Trace) (p : Except UninstallerError Unit × World) :
    Except UninstallerError CleanResult × World :=
  match p with
  | (.ok _, w') => (.ok ⟨trace.id, trace.path, true, none, 0⟩, w')
  | (.error e, w') => (.ok ⟨trace.id, trace.path, false, some e.display, 0⟩, w')

/-- `cleaner::registry::delete_registry_trace`: parse the hive, dispatch on
the trace kind, and convert the unit result into a `CleanResult`. -/
def delete_registry_trace (w : World) (trace : Trace) :
    Except UninstallerError CleanResult × World :=
  match parse_registry_path trace.path with
  | none => (.ok ⟨trace.id, trace.path, false, some "无效的注册表路径格式", 0⟩, w)
  | some (hkey, subkey_path) =>
      match trace.trace_type with
      | .RegistryKey => registry_result trace (delete_registry_key w hkey subkey_path)
      | .RegistryValue => registry_result trace (delete_registry_value w hkey subkey_path)
      | _ => (.ok ⟨trace.id, trace.path, false, some "不支持的注册表痕迹类型", 0⟩, w)

/-- Per-kind dispatch selected by `clean_traces`'s `match trace.trace_type`;
`none` is the unsupported-kind arm. -/
def clean_dispatch (w : World) (trace : Trace) :
    Option (Except UninstallerError CleanResult × World) :=
  match trace.trace_type with
  | .RegistryKey => some (delete_registry_trace w trace)
  | .RegistryValue => some (delete_registry_trace w trace)
  | .File => some (delete_file_trace w trace)
  | .AppData => some (delete_file_trace w trace)
  | .Shortcut => some (delete_shortcut_trace w trace)
  | _ => none

/-- Body of `clean_traces`'s loop for one trace: Safety Gate, dispatch, and
conversion of a remover error into a failed result.  Always yields exactly
one `CleanResult`. -/
def clean_one (w : World) (trace : Trace) : CleanResult × World :=
  match pre_delete_check trace with
  | .error e =>
      (⟨trace.id, trace.path, false, some ("跳过关键系统项: " ++ e.display), 0⟩, w)
  | .ok _ =>
      match clean_dispatch w trace with
      | none => (⟨trace.id, trace.path, false, some "不支持的痕迹类型", 0⟩, w)
      | some (.ok r, w') => (r, w')
      | some (.error e, w') => (⟨trace.id, trace.path, false, some e.display, 0⟩, w')

/-- Sequential fold of `clean_one` over the batch, threading the world. -/
def clean_go : World → List Trace → List CleanResult × World
  | w, [] => ([], w)
  | w, trace :: rest =>
      let p := clean_one w trace
      let q := clean_go p.2 rest
      (p.1 :: q.1, q.2)

/-- `cleaner::clean_traces`: the single confirmation gate, then the
sequential per-trace loop. -/
def clean_traces (traces : List Trace) (confirm : Bool) (w : World) :
    Except UninstallerError (List CleanResult) × World :=
  if !confirm then (.error (.PermissionDenied "需要确认才能执行清理"), w)
  else
    let p := clean_go w traces
    (.ok p.1, p.2)

/-! ## Scan orchestrator post-pass (`src/modules/scanner/mod.rs`, lines 95-106) -/

/-- Loop body of `assign_confidence_scores` for one trace: recompute the
confidence from the final path, then flag criticality via the `utils`
denylists (registry traces additionally via the registry list). -/
def assign_confidence_one (name_lower : String) (trace : Trace) : Trace :=
  let path_lower := strLower trace.path
  let name_match := strContainsSub path_lower name_lower
  let exact_match :=
    strContainsSub path_lower ("\\" ++ name_lower ++ " ")
    || strContainsSub path_lower ("/" ++ name_lower ++ " ")
    || strContainsSub path_lower ("\\" ++ name_lower ++ ".")
  let confidence :=
    if exact_match then Confidence.High
    else if name_match then Confidence.Medium
    else Confidence.Low
  let crit1 := if is_system_critical_path trace.path then true else trace.is_critical
  let isRegKind :=
    match trace.trace_type with
    | .RegistryKey | .RegistryValue => true
    | _ => false
  let crit2 := if isRegKind && is_critical_registry_path trace.path then true else crit1
  { trace with confidence := confidence, is_critical := crit2 }

/-- `assign_confidence_scores` over the merged list. -/
def assign_confidence_scores (program_name : String) (traces : List Trace) : List Trace :=
  traces.map (assign_confidence_one (strLower program_name))

/-- Deterministic tail of `scan_all_traces` (lines 95-106): the merged list
collected from the four concurrent scanners is universally quantified, and
this function applies the confidence pass, the stable
`sort_by(|a, b| b.confidence.cmp(&a.confidence))` (modelled as a stable
insertion sort over the same comparator) and the `exists` filter. -/
def scan_post (program_name : String) (merged : List Trace) : List Trace :=
  let result := assign_confidence_scores program_name merged
  let sorted :=
    List.insertionSort (fun a b => Confidence.cmp b.confidence a.confidence ≠ Ordering.gt) result
  sorted.filter fun t => t.exists_

/-! ## Filesystem scanner (`src/modules/scanner/filesystem.rs`) -/

/-- `is_system_dir`: substring containment of the six markers anywhere in the
uppercased full path. -/
def is_system_dir (path : String) : Bool :=
  let path_str := strUpper path
  ["WINDOWS", "SYSTEM32", "SYSWOW64", "WINSXS", "INF", "DRIVERS"].any fun sys_dir =>
    strContainsSub path_str sys_dir

/-- One entry yielded by the bounded `WalkDir` walk, as `scan_directory`
observes it.  `entry_meta_len` is the `entry.metadata().len()` value used in
the directory description. -/
structure WalkEntry where
  path : String
  file_name : String
  is_dir : Bool
  ext_is_lnk : Bool
  file_len : Option Nat
  entry_meta_len : Option Nat
deriving DecidableEq, Repr

/-- One root from `get_scan_dirs`, with its existence bit and the entries the
depth-3 walk would visit (in walk order).  The walk itself is OS behaviour
and is part of the environment. -/
structure ScanRoot where
  root : String
  exists_ : Bool
  entries : List WalkEntry
deriving DecidableEq, Repr

/-- Environment of the filesystem scanner: the roots with their walks, the
floating-point rendering of `utils::format_size`, and the `Uuid::new_v4`
draw for each created trace (keyed by path; uniqueness is irrelevant to the
claims). -/
structure ScanFsEnv where
  dirs_to_scan : List ScanRoot
  format_size : Nat → String
  uuid_for : String → String

/-- Loop body of `scan_directory` for one walk entry: substring name match,
system-directory exclusion, then trace construction. -/
def scan_entry (env : ScanFsEnv) (pattern : String) (e : WalkEntry) : Option Trace :=
  let name := strLower e.file_name
  if strContainsSub name pattern then
    if is_system_dir e.path then none
    else
      let trace_type :=
        if e.is_dir then TraceType.File
        else if e.ext_is_lnk then TraceType.Shortcut
        else TraceType.File
      let size := if !e.is_dir then e.file_len else none
      let description :=
        if e.is_dir then "目录: " ++ toString (e.entry_meta_len.getD 0) ++ " 个项目"
        else (size.map fun s => "文件大小: " ++ env.format_size s).getD ""
      let confidence :=
        if strStarts name pattern || name == pattern then Confidence.High
        else Confidence.Medium
      some { id := env.uuid_for e.path
             program_name := pattern
             trace_type := trace_type
             path := e.path
             description := description
             size := size
             is_critical := false
             confidence := confidence
             exists_ := true }
  else none

/-- `scan_directory`: the walk entries in order, through `scan_entry`. -/
def scan_directory (env : ScanFsEnv) (pattern : String) (entries : List WalkEntry) : List Trace :=
  entries.filterMap (scan_entry env pattern)

/-- `scan_filesystem_traces`: lowercase the pattern, skip missing roots, scan
each remaining root in order. -/
def scan_filesystem_traces (env : ScanFsEnv) (program_name : String) : List Trace :=
  let search_pattern := strLower program_name
  (env.dirs_to_scan.filter fun r => r.exists_).flatMap fun r =>
    scan_directory env search_pattern r.entries

/-! ## Lister models (`src/modules/lister/models.rs`) -/

/-- Metadata confidence with its explicit conservativeness score. -/
inductive MetadataConfidence where
  | High
  | Medium
  | Low
  | Unknown
deriving DecidableEq, Repr

/-- `MetadataConfidence::score`. -/
def MetadataConfidence.score : MetadataConfidence → Nat
  | .High => 4
  | .Medium => 3
  | .Low => 2
  | .Unknown => 1

/-- `min_by_key(score)` over a slice, first minimum winning (Rust
`Iterator::min_by_key` keeps the first of equally-minimal elements). -/
def minByScore : MetadataConfidence → List MetadataConfidence → MetadataConfidence
  | best, [] => best
  | best, v :: rest => minByScore (if v.score < best.score then v else best) rest

/-- `MetadataConfidence::lowest`: the least confident of the given values,
`Unknown` for an empty slice. -/
def MetadataConfidence.lowest (values : List MetadataConfidence) : MetadataConfidence :=
  match values with
  | [] => .Unknown
  | v :: rest => minByScore v rest

/-- Provenance of one metadata field. -/
inductive MetadataSource where
  | Registry
  | Filesystem
  | Derived
  | Unknown
deriving DecidableEq, Repr

/-- Installation source of a program. -/
inductive InstallSource where
  | Registry
  | Msi
  | Store
  | Unknown
deriving DecidableEq, Repr

/-- `InstallSource`'s `Display` implementation. -/
def InstallSource.display : InstallSource → String
  | .Registry => "Registry"
  | .Msi => "MSI"
  | .Store => "Store"
  | .Unknown => "Unknown"

/-- One row of the program inventory (`struct InstalledProgram`); the field
defaults are those of `InstalledProgram::new` (the random uuid `id` is given
explicitly wherever a literal is built). -/
structure InstalledProgram where
  id : String
  name : String
  publisher : Option String := none
  version : Option String := none
  install_date : Option String := none
  install_location : Option String := none
  uninstall_string : Option String := none
  install_source : InstallSource := .Unknown
  size : Option Nat := none
  icon_path : Option String := none
  icon_cache_path_32 : Option String := none
  icon_cache_path_48 : Option String := none
  size_last_updated_at : Option String := none
  icon_data_url : Option String := none
  icon_data_url_32 : Option String := none
  icon_data_url_48 : Option String := none
  estimated_size : Option Nat := none
  display_version : Option String := none
  url_info_about : Option String := none
  help_link : Option String := none
  install_date_source : MetadataSource := .Unknown
  install_date_confidence : MetadataConfidence := .Unknown
  icon_source : MetadataSource := .Unknown
  icon_confidence : MetadataConfidence := .Unknown
  size_source : MetadataSource := .Unknown
  size_confidence : MetadataConfidence := .Unknown
  metadata_confidence : MetadataConfidence := .Unknown
deriving DecidableEq, Repr

/-! ## Metadata enrichment (`src/modules/lister/enrichment.rs`) -/

/-- A `chrono::NaiveDate`. -/
structure NaiveDate where
  y : Int
  m : Nat
  d : Nat
deriving DecidableEq, Repr

/-- The two optional PNG cache paths produced by icon extraction. -/
structure IconAssetBundle where
  icon_cache_path_32 : Option String
  icon_cache_path_48 : Option String
deriving DecidableEq, Repr

/-- Environment of the enricher.  `parse_from_str` / `format_iso` model the
external `chrono` library; `sanitize_icon_path`,
`find_icon_from_install_location` and `build_icon_assets_from_path` are the
I/O-performing helpers of `enrichment.rs` (quote/index stripping plus
`Path::exists`, install-directory scanning, and the PowerShell rasterizer);
`path_is_dir` is `location.exists() && location.is_dir()`;
`dir_size_limited` is `calculate_directory_size_limited` with its wall-clock
and entry budget (`none` when a budget is exceeded). -/
structure EnrichWorld where
  parse_from_str : String → String → Option NaiveDate
  format_iso : NaiveDate → String
  sanitize_icon_path : String → Option String
  find_icon_from_install_location : Option String → Option String
  build_icon_assets_from_path : String → Option IconAssetBundle
  path_is_dir : String → Bool
  dir_size_limited : String → Option Nat
  now_rfc3339 : String

/-- `normalize_install_date`: trim, reject empty, then the first of the four
formats that parses, re-rendered as `%Y-%m-%d`. -/
def normalize_install_date (w : EnrichWorld) (raw : String) : Option String :=
  let trimmed := strTrim raw
  if trimmed.data.isEmpty then none
  else
    ((["%Y%m%d", "%Y-%m-%d", "%Y/%m/%d", "%m/%d/%Y"].filterMap
        fun format => w.parse_from_str trimmed format).head?).map w.format_iso

/-- `resolve_program_size`: registry `EstimatedSize` first, then the bounded
filesystem walk of the install location, conservative `Low` otherwise. -/
def resolve_program_size (w : EnrichWorld) (program : InstalledProgram) :
    Option Nat × MetadataSource × MetadataConfidence :=
  match program.estimated_size with
  | some estimated => (some estimated, .Registry, .High)
  | none =>
      match program.install_location with
      | some path =>
          if (strTrim path).data.isEmpty then (none, .Unknown, .Low)
          else if !w.path_is_dir path then (none, .Unknown, .Low)
          else
            match w.dir_size_limited path with
            | some size => if size > 0 then (some size, .Filesystem, .Medium)
                           else (none, .Unknown, .Low)
            | none => (none, .Unknown, .Low)
      | none => (none, .Unknown, .Low)

/-- Final statement of `enrich_program`: the aggregate confidence is
`lowest` of the three per-field confidences just computed. -/
def finalize_metadata (p : InstalledProgram) : InstalledProgram :=
  { p with metadata_confidence := MetadataConfidence.lowest [p.install_date_confidence, p.icon_confidence, p.size_confidence] }

/-- `enrich_program`: the date step, the icon step (sanitize, fallback,
asset extraction, provenance), the size step, then `finalize_metadata`. -/
def enrich_program (w : EnrichWorld) (program : InstalledProgram) : InstalledProgram :=
  let p1 :=
    match program.install_date with
    | some raw_date =>
        match normalize_install_date w raw_date with
        | some normalized =>
            { program with install_date := some normalized,
                           install_date_source := .Registry,
                           install_date_confidence := .High }
        | none =>
            { program with install_date := none,
                           install_date_source := .Registry,
                           install_date_confidence := .Low }
    | none =>
        { program with install_date_source := .Unknown,
                       install_date_confidence := .Unknown }
  let original_display_icon := p1.icon_path
  let sanitized_icon :=
    match p1.icon_path.bind w.sanitize_icon_path with
    | some s => some s
    | none => w.find_icon_from_install_location p1.install_location
  let p2 :=
    match sanitized_icon with
    | some icon_path =>
        let from_registry := (p1.icon_path.bind w.sanitize_icon_path).isSome
        let pIcon := { p1 with icon_path := some icon_path }
        let icon_extract_source :=
          match original_display_icon with
          | some s => s
          | none => (pIcon.icon_path).getD ""
        let pAssets :=
          match w.build_icon_assets_from_path icon_extract_source with
          | some icon_assets =>
              { pIcon with icon_cache_path_32 := icon_assets.icon_cache_path_32,
                           icon_cache_path_48 := icon_assets.icon_cache_path_48,
                           icon_data_url := none,
                           icon_data_url_32 := none,
                           icon_data_url_48 := none }
          | none =>
              { pIcon with icon_data_url := none,
                           icon_data_url_32 := none,
                           icon_data_url_48 := none,
                           icon_cache_path_32 := none,
                           icon_cache_path_48 := none }
        if from_registry then
          { pAssets with icon_source := .Registry, icon_confidence := .High }
        else
          { pAssets with icon_source := .Filesystem, icon_confidence := .Medium }
    | none =>
        { p1 with icon_path := none,
                  icon_data_url := none,
                  icon_data_url_32 := none,
                  icon_data_url_48 := none,
                  icon_cache_path_32 := none,
                  icon_cache_path_48 := none,
                  icon_source := .Unknown,
                  icon_confidence := .Low }
  let rs := resolve_program_size w p2
  let p3 := { p2 with size := rs.1, size_source := rs.2.1, size_confidence := rs.2.2 }
  let p4 :=
    if p3.size.isSome then { p3 with size_last_updated_at := some w.now_rfc3339 } else p3
  finalize_metadata p4

/-- `enrich_programs`: the enricher over the whole inventory. -/
def enrich_programs (w : EnrichWorld) (programs : List InstalledProgram) :
    List InstalledProgram :=
  programs.map (enrich_program w)

/-! ## Scan cache storage (`src/modules/lister/storage.rs`) -/

/-- `CACHE_SCHEMA_VERSION` of the current build. -/
def CACHE_SCHEMA_VERSION : Nat := 4

/-- `DEFAULT_CACHE_TTL_SECONDS`. -/
def DEFAULT_CACHE_TTL_SECONDS : Int := 900

/-- One row of the `installed_programs_cache` table (the indexed scalar
columns are recoverable from `payload`, which models the lossless
`payload_json` serde round trip of the program). -/
structure CacheRow where
  cache_key : String
  name : String
  payload : InstalledProgram
  updated_at : String
deriving DecidableEq, Repr

/-- The persisted SQLite cache: file existence, the cache table, and the two
metadata rows. -/
structure CacheDb where
  file_exists : Bool
  rows : List CacheRow
  meta_schema_version : Option String
  meta_generated_at : Option String
deriving DecidableEq, Repr

def emptyCacheDb : CacheDb := ⟨false, [], none, none⟩

/-- Environment of the storage layer: the 64-bit `DefaultHasher` digest of
the five-component cache-key tuple (an external hash, so collisions are a
possible behaviour), and `chrono`'s RFC3339 parser rendered as seconds since
the epoch. -/
structure StorageEnv where
  hash_key : String × String × String × String × String → String
  parse_rfc3339 : String → Option Int

/-- `build_program_cache_key`: hash of the lowercased name, publisher,
uninstall string and install location plus the install-source display. -/
def build_program_cache_key (env : StorageEnv) (program : InstalledProgram) : String :=
  env.hash_key
    (strLower program.name,
     strLower (program.publisher.getD ""),
     strLower (program.uninstall_string.getD ""),
     strLower (program.install_location.getD ""),
     program.install_source.display)

/-- The prepared `INSERT` statement run once per entry; `cache_key` is the
table's primary key, so a duplicate aborts the transaction with a constraint
error. -/
def insert_rows (env : StorageEnv) (now : String) :
    List InstalledProgram → List CacheRow → Except UninstallerError (List CacheRow)
  | [], acc => .ok acc
  | program :: rest, acc =>
      if acc.any fun r => r.cache_key == build_program_cache_key env program then
        .error (.Other "写入缓存记录失败: UNIQUE constraint failed")
      else
        insert_rows env now rest
          (acc ++ [⟨build_program_cache_key env program, program.name, program, now⟩])

/-- `save_scan_cache`: opening the connection creates the database file and
tables; inside one transaction the cache table is emptied, every entry is
reinserted, and the schema-version / generated-at metadata is written; the
transaction is rolled back (rows and metadata unchanged) if an insert
fails. -/
def save_scan_cache (env : StorageEnv) (now : String) (entries : List InstalledProgram)
    (db : CacheDb) : Except UninstallerError Unit × CacheDb :=
  let dbOpen := { db with file_exists := true }
  match insert_rows env now entries [] with
  | .error e => (.error e, dbOpen)
  | .ok rows =>
      (.ok (),
       { dbOpen with rows := rows,
                     meta_schema_version := some (toString CACHE_SCHEMA_VERSION),
                     meta_generated_at := some now })

/-- Read result of the scan cache (`struct ScanCacheReadResult`). -/
structure ScanCacheReadResult where
  entries : Option (List InstalledProgram)
  cache_hit : Bool
  cache_valid : Bool
  schema_version : Nat
  generated_at : Option String
  reason : Option String
deriving DecidableEq, Repr

/-- `ScanCacheReadResult::default()`: a miss carrying the current build's
schema version. -/
def dflScanCacheReadResult : ScanCacheReadResult :=
  ⟨none, false, false, CACHE_SCHEMA_VERSION, none, none⟩

/-- Case-insensitive name order used by the `ORDER BY name COLLATE NOCASE`
row read. -/
def cacheRowLe (a b : CacheRow) : Prop :=
  chLe (strLower a.name).data (strLower b.name).data = true

instance : DecidableRel cacheRowLe := fun a b => by
  unfold cacheRowLe; infer_instance

/-- `read_scan_cache` with all validity checks, in source order: file
existence, schema version, presence then parseability of `generated_at`,
TTL expiry (with the `ttl_seconds.max(1)` clamp), then the name-ordered
(case-insensitive) row read and the emptiness check. -/
def read_scan_cache (env : StorageEnv) (now : Int) (ttl_seconds : Int) (db : CacheDb) :
    ScanCacheReadResult :=
  if !db.file_exists then
    { dflScanCacheReadResult with reason := some "cache_missing" }
  else
    let schema_version := ((db.meta_schema_version.bind parse_u32).getD 0)
    let generated_at := db.meta_generated_at
    if schema_version ≠ CACHE_SCHEMA_VERSION then
      { dflScanCacheReadResult with schema_version := schema_version,
                                    generated_at := generated_at,
                                    reason := some "schema_mismatch" }
    else
      match generated_at with
      | none =>
          { dflScanCacheReadResult with schema_version := schema_version,
                                        reason := some "cache_missing_generated_at" }
      | some generated_at_value =>
          match env.parse_rfc3339 generated_at_value with
          | none =>
              { dflScanCacheReadResult with schema_version := schema_version,
                                            generated_at := some generated_at_value,
                                            reason := some "cache_invalid_generated_at" }
          | some generated_at_time =>
              let ttl := max ttl_seconds 1
              if now - generated_at_time > ttl then
                { dflScanCacheReadResult with schema_version := schema_version,
                                              generated_at := some generated_at_value,
                                              reason := some "cache_expired" }
              else
                let sorted_rows := List.insertionSort cacheRowLe db.rows
                let programs := sorted_rows.map fun r => r.payload
                if programs.isEmpty then
                  { dflScanCacheReadResult with schema_version := schema_version,
                                                generated_at := some generated_at_value,
                                                reason := some "cache_empty" }
                else
                  { entries := some programs,
                    cache_hit := true,
                    cache_valid := true,
                    schema_version := schema_version,
                    generated_at := some generated_at_value,
                    reason := none }

/-! ## Program Lister (`src/modules/lister/mod.rs`) -/

/-- Cache provenance reported with every list response
(`struct ProgramListCacheState` and its `Default`). -/
structure ProgramListCacheState where
  cache_hit : Bool
  cache_valid : Bool
  refreshed : Bool
  schema_version : Nat
  generated_at : Option String
  reason : Option String
deriving DecidableEq, Repr

def dflProgramListCacheState : ProgramListCacheState := ⟨false, false, false, 0, none, none⟩

/-- Query parameters of `list_programs_with_cache`. -/
structure ListProgramsQuery where
  source : Option InstallSource := none
  search : Option String := none
  refresh : Bool := false
  cache_ttl_seconds : Int := 0
deriving DecidableEq, Repr

/-- Response of `list_programs_with_cache`. -/
structure ProgramListResponse where
  programs : List InstalledProgram
  cache : ProgramListCacheState
deriving DecidableEq, Repr

/-- Environment of the lister: the storage and enrichment environments, the
source collectors (registry / MSI / Store enumeration, all external I/O),
the skim fuzzy matcher, and the current time in both representations the
source draws from `Utc::now()`. -/
structure ListerEnv where
  storage : StorageEnv
  enrich : EnrichWorld
  collect_programs : Option InstallSource → List InstalledProgram
  fuzzy_match : String → String → Bool
  now_str : String
  now_sec : Int

/-- `is_cache_eligible`: only `None` and `Some(Registry)` sources. -/
def is_cache_eligible : Option InstallSource → Bool
  | none => true
  | some .Registry => true
  | some _ => false

/-- `dedupe_and_sort`'s dedupe pass: retain the first occurrence of each
lowercased name. -/
def dedupe_go (seen : List String) : List InstalledProgram → List InstalledProgram
  | [] => []
  | p :: rest =>
      let k := strLower p.name
      if seen.contains k then dedupe_go seen rest
      else p :: dedupe_go (k :: seen) rest

/-- `dedupe_and_sort`: dedupe by lowercased name (first wins), then the
stable sort by lowercased name. -/
def dedupe_and_sort (programs : List InstalledProgram) : List InstalledProgram :=
  List.insertionSort (fun a b => chLe (strLower a.name).data (strLower b.name).data = true)
    (dedupe_go [] programs)

/-- `apply_search_filter`: fuzzy match of the lowercased name or publisher
against the lowercased query. -/
def apply_search_filter (env : ListerEnv) (programs : List InstalledProgram)
    (search : Option String) : List InstalledProgram :=
  match search with
  | none => programs
  | some query =>
      let normalized_query := strLower query
      programs.filter fun program =>
        env.fuzzy_match (strLower program.name) normalized_query
        || (match program.publisher with
            | some publisher => env.fuzzy_match (strLower publisher) normalized_query
            | none => false)

/-- `list_programs_with_cache`: default the TTL, try the cache for eligible
non-refresh queries, otherwise collect + enrich + dedupe/sort, rebuild the
cache when eligible (propagating a save error), and report provenance. -/
def list_programs_with_cache (env : ListerEnv) (query0 : ListProgramsQuery) (db : CacheDb) :
    Except UninstallerError (ProgramListResponse × CacheDb) :=
  let query :=
    if query0.cache_ttl_seconds ≤ 0 then
      { query0 with cache_ttl_seconds := DEFAULT_CACHE_TTL_SECONDS }
    else query0
  let cache_eligible := is_cache_eligible query.source
  let cache_state0 := { dflProgramListCacheState with schema_version := CACHE_SCHEMA_VERSION }
  let attempt : Option (ProgramListResponse × CacheDb) × ProgramListCacheState :=
    if cache_eligible && !query.refresh then
      let cached := read_scan_cache env.storage env.now_sec query.cache_ttl_seconds db
      let cs := { cache_state0 with schema_version := cached.schema_version,
                                    generated_at := cached.generated_at,
                                    reason := cached.reason }
      if cached.cache_hit && cached.cache_valid then
        let cached_programs := apply_search_filter env (cached.entries.getD []) query.search
        (some ({ programs := cached_programs,
                 cache := { cs with cache_hit := true, cache_valid := true, refreshed := false } },
               db),
         cs)
      else (none, cs)
    else (none, cache_state0)
  match attempt.1 with
  | some resp => .ok resp
  | none =>
      let cs := attempt.2
      let all_programs := dedupe_and_sort (enrich_programs env.enrich (env.collect_programs query.source))
      if cache_eligible then
        match save_scan_cache env.storage env.now_str all_programs db with
        | (.error e, _) => .error e
        | (.ok _, db') =>
            let cs1 := { cs with cache_hit := false, cache_valid := true, refreshed := true,
                                 schema_version := CACHE_SCHEMA_VERSION,
                                 generated_at := some env.now_str }
            let cs2 :=
              if query.refresh then { cs1 with reason := some "force_refresh" }
              else if cs1.reason = none then { cs1 with reason := some "cache_rebuilt" }
              else cs1
            .ok ({ programs := apply_search_filter env all_programs query.search, cache := cs2 },
                 db')
      else
        let cs1 := { cs with cache_hit := false, cache_valid := false, refreshed := false,
                             reason := some "source_not_cacheable" }
        .ok ({ programs := apply_search_filter env all_programs query.search, cache := cs1 }, db)

/-! ## Specification-side definitions used to state claims -/

/-- Minimum of two metadata confidences under the ordering
`High > Medium > Low > Unknown` (the less-confident of the two; the score is
injective, so ties are equalities and the choice is immaterial). -/
def confMin (a b : MetadataConfidence) : MetadataConfidence :=
  if a.score ≤ b.score then a else b

/-- The five invalidity reasons claim C8 allows. -/
def C8_CLAIMED_REASONS : List String :=
  ["cache_missing", "schema_mismatch", "cache_invalid_generated_at",
   "cache_expired", "cache_empty"]

/-- The six reasons the code can actually report (amended set). -/
def C8_AMENDED_REASONS : List String :=
  ["cache_missing", "schema_mismatch", "cache_missing_generated_at",
   "cache_invalid_generated_at", "cache_expired", "cache_empty"]

/-- The reason `read_scan_cache` is specified (amended claim C8) to report,
written directly from the claim's conditions in guard order; `none` means a
valid hit. -/
def c8_expected_reason (env : StorageEnv) (now ttl : Int) (db : CacheDb) : Option String :=
  if !db.file_exists then some "cache_missing"
  else if ((db.meta_schema_version.bind parse_u32).getD 0) ≠ CACHE_SCHEMA_VERSION then
    some "schema_mismatch"
  else
    match db.meta_generated_at with
    | none => some "cache_missing_generated_at"
    | some g =>
        match env.parse_rfc3339 g with
        | none => some "cache_invalid_generated_at"
        | some t =>
            if now - t > max ttl 1 then some "cache_expired"
            else if db.rows.isEmpty then some "cache_empty"
            else none

/-! ## Concrete fixtures used by counterexamples and witnesses -/

/-- Registry path under the mixed-case `...CurrentVersion\Run` denylist
entry. -/
def c1path : String := "HKLM\\SOFTWARE\\Microsoft\\Windows\\CurrentVersion\\Run\\MyApp"

def c1trace : Trace :=
  ⟨"t-c1", "MyApp", .RegistryKey, c1path, "", none, false, .Low, true⟩

def c1world : World :=
  ⟨[], [((.HKEY_LOCAL_MACHINE, "SOFTWARE\\Microsoft\\Windows\\CurrentVersion\\Run\\MyApp"), [])]⟩

def c2TraceA : Trace := ⟨"t-c2a", "app", .File, "C:\\myapp", "", none, false, .Medium, true⟩

def c2TraceB : Trace := ⟨"t-c2b", "app", .File, "C:\\app setup", "", none, false, .High, true⟩

/-- A `RegistryValue` trace whose parent key does not exist. -/
def c3BadTrace : Trace :=
  ⟨"t-c3r", "MyApp", .RegistryValue, "HKCU\\Software\\MissingKey\\SomeValue", "", none, false,
   .Low, true⟩

/-- A `File` trace whose path does not exist. -/
def c3FileTrace : Trace :=
  ⟨"t-c3f", "GoneApp", .File, "C:\\Temp\\GoneApp", "", none, false, .Low, true⟩

/-- A `RegistryKey` trace spelled with the long hive name. -/
def c4LongTrace : Trace :=
  ⟨"t-c4", "Test", .RegistryKey, "HKEY_LOCAL_MACHINE\\SOFTWARE\\Test", "", none, false, .Low, true⟩

/-- A `RegistryKey` trace with no recognized hive spelling. -/
def c4InvalidTrace : Trace :=
  ⟨"t-c4i", "Test", .RegistryKey, "Invalid\\Path", "", none, false, .Low, true⟩

/-- World in which the key the long-form path denotes does exist. -/
def c4World : World := ⟨[], [((.HKEY_LOCAL_MACHINE, "SOFTWARE\\Test"), [])]⟩

/-- Concrete storage environment: constant hash digest and an RFC3339 parser
recognizing the one timestamp the fixtures use. -/
def envStorage0 : StorageEnv :=
  ⟨fun _ => "k0", fun s => if s == "2026-01-01T00:00:00Z" then some 0 else none⟩

def c7Program : InstalledProgram := { id := "p1", name := "Demo" }

/-- Database produced by saving the singleton list `[c7Program]`. -/
def c7SavedDb : CacheDb :=
  (save_scan_cache envStorage0 "2026-01-01T00:00:00Z" [c7Program] emptyCacheDb).2

/-- Cache file present, schema current, but no `generated_at` metadata row. -/
def c8Db : CacheDb := ⟨true, [], some "4", none⟩

/-- Trivial enrichment environment for the lister fixtures. -/
def enrich0 : EnrichWorld :=
  ⟨fun _ _ => none, fun _ => "", fun _ => none, fun _ => none, fun _ => none,
   fun _ => false, fun _ => none, "2026-01-01T00:00:00Z"⟩

/-- Concrete lister environment with no installed programs. -/
def lister0 : ListerEnv :=
  ⟨envStorage0, enrich0, fun _ => [], fun _ _ => false, "2026-01-01T00:00:00Z", 0⟩

/-- One walk entry outside every system-directory marker. -/
def c10Entry : WalkEntry := ⟨"C:\\Program Files\\DemoApp", "DemoApp", true, false, none, some 3⟩

def env10 : ScanFsEnv := ⟨[⟨"C:\\Program Files", true, [c10Entry]⟩], fun _ => "1 B", fun _ => "u-1"⟩

/-- The trace `scan_filesystem_traces env10 "DemoApp"` produces. -/
def c10Trace : Trace :=
  ⟨"u-1", "demoapp", .File, "C:\\Program Files\\DemoApp", "目录: 3 个项目", none, false, .High,
   true⟩

/-! ## Claim theorems -/

/-- C1 (code bug): the path `HKLM\SOFTWARE\Microsoft\Windows\CurrentVersion\Run\MyApp`
falls under the denylist entry `HKLM\SOFTWARE\Microsoft\Windows\CurrentVersion\Run`
when matched case-insensitively (uppercased entry), as the claim and spec
state; yet `is_critical_registry` compares the uppercased path against the
raw mixed-case entry, so `pre_delete_check` accepts the trace and
`clean_traces` invokes the registry remover, which deletes the Run key
(success result, registry entry removed from the world). -/
theorem safety_registry_denylist_case_bug :
    "HKLM\\SOFTWARE\\Microsoft\\Windows\\CurrentVersion\\Run" ∈ CRITICAL_REGISTRY_PATHS ∧
    strStarts (strUpper c1path)
      (strUpper "HKLM\\SOFTWARE\\Microsoft\\Windows\\CurrentVersion\\Run") = true ∧
    is_critical_registry c1path = false ∧
    pre_delete_check c1trace = .ok () ∧
    clean_traces [c1trace] true c1world =
      (.ok [⟨"t-c1", c1path, true, none, 0⟩], (⟨[], []⟩ : World)) := by
  decide

/-- C2 (code bug): after the post-pass, trace A (path `C:\myapp`) is Medium
and trace B (path `C:\app setup`) is High, yet `scan_post` returns Medium
before High: `derive(Ord)` on `Confidence` makes `High` the least variant
(`cmp High Medium = lt`), so `sort_by(|a, b| b.confidence.cmp(&a.confidence))`
puts the least-confident traces first, contrary to the claimed
High-before-Medium-before-Low order.  The final conjunct shows the
`exists` filter of the same pass. -/
theorem scan_confidence_sort_direction_bug :
    (scan_post "app" [c2TraceA, c2TraceB]).map (fun t => t.confidence) =
      [Confidence.Medium, Confidence.High] ∧
    Confidence.cmp .High .Medium = .lt ∧
    (scan_post "app" [{ c2TraceA with exists_ := false }, c2TraceB]).map (fun t => t.path) =
      ["C:\\app setup"] := by
  decide

/-- C3 counterexample: a `RegistryValue` trace whose parent key does not
exist passes the Safety Gate and its removal target is gone, yet
`clean_traces` reports `success = false`: `open_subkey_with_flags` fails with
`NotFound`, which `?` propagates as a `FileSystem` error instead of the
idempotent-success treatment the claim requires. -/
theorem registry_value_missing_key_not_idempotent :
    pre_delete_check c3BadTrace = .ok () ∧
    parse_registry_path c3BadTrace.path =
      some (.HKEY_CURRENT_USER, "Software\\MissingKey\\SomeValue") ∧
    rsplit_value_path "Software\\MissingKey\\SomeValue" =
      some ("Software\\MissingKey", "SomeValue") ∧
    emptyWorld.regLookup .HKEY_CURRENT_USER "Software\\MissingKey" = none ∧
    clean_traces [c3BadTrace] true emptyWorld =
      (.ok [⟨"t-c3r", "HKCU\\Software\\MissingKey\\SomeValue", false,
            some ("文件系统错误: " ++ ioNotFoundText), 0⟩], emptyWorld) := by
  decide

/-- C4 (code bug): for the long hive spelling the parser returns the path
sliced at byte 5, `LOCAL_MACHINE\SOFTWARE\Test`, not the remainder after the
hive prefix and separator (`SOFTWARE\Test`); the short spelling is correct
and an unrecognized spelling yields `None` with a failed result from the
registry remover.  Consequently deleting a long-form `RegistryKey` trace
reports success while leaving the existing key untouched. -/
theorem parse_registry_path_long_form_bug :
    parse_registry_path "HKEY_LOCAL_MACHINE\\SOFTWARE\\Test" =
      some (.HKEY_LOCAL_MACHINE, "LOCAL_MACHINE\\SOFTWARE\\Test") ∧
    "LOCAL_MACHINE\\SOFTWARE\\Test" ≠ "SOFTWARE\\Test" ∧
    parse_registry_path "HKLM\\SOFTWARE\\Test" = some (.HKEY_LOCAL_MACHINE, "SOFTWARE\\Test") ∧
    parse_registry_path "Invalid\\Path" = none ∧
    delete_registry_trace c4World c4InvalidTrace =
      (.ok ⟨"t-c4i", "Invalid\\Path", false, some "无效的注册表路径格式", 0⟩, c4World) ∧
    clean_traces [c4LongTrace] true c4World =
      (.ok [⟨"t-c4", "HKEY_LOCAL_MACHINE\\SOFTWARE\\Test", true, none, 0⟩], c4World) := by
  decide

/-- An `Ok` result of the filesystem remover carries the trace's id and path. -/
theorem delete_file_trace_fields (w : World) (t : Trace) (r : CleanResult)
    (hr : (delete_file_trace w t).1 = .ok r) : r.trace_id = t.id ∧ r.path = t.path := by
  unfold delete_file_trace at hr
  repeat' split at hr
  all_goals first
  | (injection hr with hr; subst hr; exact ⟨rfl, rfl⟩)
  | simp at hr

/-- An `Ok` result of the shortcut remover carries the trace's id and path. -/
theorem delete_shortcut_trace_fields (w : World) (t : Trace) (r : CleanResult)
    (hr : (delete_shortcut_trace w t).1 = .ok r) : r.trace_id = t.id ∧ r.path = t.path := by
  unfold delete_shortcut_trace at hr
  repeat' split at hr
  all_goals (injection hr with hr; subst hr; exact ⟨rfl, rfl⟩)

/-- A `registry_result` always carries the trace's id and path. -/
theorem registry_result_fields (t : Trace) (p : Except UninstallerError Unit × World)
    (r : CleanResult) (hr : (registry_result t p).1 = .ok r) :
    r.trace_id = t.id ∧ r.path = t.path := by
  obtain ⟨res, w'⟩ := p
  cases res <;> (injection hr with hr; subst hr; exact ⟨rfl, rfl⟩)

/-- An `Ok` result of the registry remover carries the trace's id and path. -/
theorem delete_registry_trace_fields (w : World) (t : Trace) (r : CleanResult)
    (hr : (delete_registry_trace w t).1 = .ok r) : r.trace_id = t.id ∧ r.path = t.path := by
  unfold delete_registry_trace at hr
  repeat' split at hr
  all_goals first
  | (injection hr with hr; subst hr; exact ⟨rfl, rfl⟩)
  | exact registry_result_fields t _ r hr

/-- An `Ok` result of whichever remover the dispatch selects carries the
trace's id and path. -/
theorem clean_dispatch_ok_fields (w : World) (t : Trace)
    (p : Except UninstallerError CleanResult × World) (hp : clean_dispatch w t = some p)
    (r : CleanResult) (hr : p.1 = .ok r) : r.trace_id = t.id ∧ r.path = t.path := by
  unfold clean_dispatch at hp
  split at hp <;>
    first
    | (injection hp with hp; subst hp; exact delete_registry_trace_fields w t r hr)
    | (injection hp with hp; subst hp; exact delete_file_trace_fields w t r hr)
    | (injection hp with hp; subst hp; exact delete_shortcut_trace_fields w t r hr)
    | exact Option.noConfusion hp

/-- The single result `clean_one` produces carries the trace's id and path,
whatever the Safety Gate, dispatch and remover decide. -/
theorem clean_one_fields (w : World) (t : Trace) :
    (clean_one w t).1.trace_id = t.id ∧ (clean_one w t).1.path = t.path := by
  unfold clean_one
  split
  · exact ⟨rfl, rfl⟩
  · split
    all_goals try exact ⟨rfl, rfl⟩
    rename_i r w' heq
    exact clean_dispatch_ok_fields w t _ heq r rfl

/-- The sequential loop yields exactly one result per trace, in input order,
each carrying its trace's id and path. -/
theorem clean_go_pairs (ts : List Trace) : ∀ w : World,
    (clean_go w ts).1.map (fun r => (r.trace_id, r.path)) =
      ts.map (fun t => (t.id, t.path)) := by
  induction ts with
  | nil => intro w; rfl
  | cons t rest ih =>
      intro w
      have h := clean_one_fields w t
      simp only [clean_go, List.map_cons, ih, h.1, h.2]

/-- C5 (confirmed): with `confirm = false`, `clean_traces` fails immediately
with the `PermissionDenied` error and the world untouched (no result, no
removal); with `confirm = true` it returns `Ok` with exactly one
`CleanResult` per input trace, in input order (each result carrying its
trace's id and path), so no single failure ever aborts the batch. -/
theorem clean_traces_confirm_gate_and_per_trace_results (traces : List Trace) (w : World) :
    clean_traces traces false w = (.error (.PermissionDenied "需要确认才能执行清理"), w) ∧
    ∃ rs w', clean_traces traces true w = (.ok rs, w') ∧
      rs.map (fun r => (r.trace_id, r.path)) = traces.map (fun t => (t.id, t.path)) := by
  refine ⟨rfl, (clean_go w traces).1, (clean_go w traces).2, rfl, ?_⟩
  exact clean_go_pairs traces w

/-- A singleton confirmed batch is the one-trace loop body. -/
theorem clean_traces_single (w : World) (t : Trace) :
    clean_traces [t] true w = (.ok [(clean_one w t).1], (clean_one w t).2) := rfl

/-- C3 (amended): for every trace that passes the Safety Gate and whose
removal target no longer exists, `clean_traces([t], true)` yields exactly one
`CleanResult` with `success = true` and `bytes_freed = 0`, leaving the world
unchanged — for a filesystem/shortcut path that does not exist, for a
registry key the registry does not contain, and for a registry value absent
from an EXISTING parent key.  (The unamended claim also covered a registry
value whose parent key is itself missing; `registry_value_missing_key_not_idempotent`
shows the code returns a failed result there, which is what forces this
amendment.) -/
theorem clean_missing_target_idempotent (w : World) (t : Trace)
    (hsafe : pre_delete_check t = .ok ()) :
    ((t.trace_type = .File ∨ t.trace_type = .AppData ∨ t.trace_type = .Shortcut) →
       w.fsLookup t.path = none →
       clean_traces [t] true w = (.ok [⟨t.id, t.path, true, none, 0⟩], w)) ∧
    (∀ h sub, t.trace_type = .RegistryKey →
       parse_registry_path t.path = some (h, sub) →
       w.regLookup h sub = none →
       clean_traces [t] true w = (.ok [⟨t.id, t.path, true, none, 0⟩], w)) ∧
    (∀ h sub kp vn vals, t.trace_type = .RegistryValue →
       parse_registry_path t.path = some (h, sub) →
       rsplit_value_path sub = some (kp, vn) →
       w.regLookup h kp = some vals →
       vals.contains vn = false →
       clean_traces [t] true w = (.ok [⟨t.id, t.path, true, none, 0⟩], w)) := by
  refine ⟨?_, ?_, ?_⟩
  · rintro (hk | hk | hk) hfs <;>
    · have hone : clean_one w t = (⟨t.id, t.path, true, none, 0⟩, w) := by
        simp [clean_one, clean_dispatch, hsafe, hk, delete_file_trace, delete_shortcut_trace, hfs]
      rw [clean_traces_single w t, hone]
  · intro h sub hk hparse hlk
    have hone : clean_one w t = (⟨t.id, t.path, true, none, 0⟩, w) := by
      simp [clean_one, clean_dispatch, hsafe, hk, delete_registry_trace, hparse,
        delete_registry_key, hlk, registry_result]
    rw [clean_traces_single w t, hone]
  · intro h sub kp vn vals hk hparse hsplit hlk hcontains
    have hmem : ¬ (vn ∈ vals) := by simpa using hcontains
    have hone : clean_one w t = (⟨t.id, t.path, true, none, 0⟩, w) := by
      simp [clean_one, clean_dispatch, hsafe, hk, delete_registry_trace, hparse,
        delete_registry_value, hsplit, hlk, hmem, registry_result]
    rw [clean_traces_single w t, hone]

/-- Witness for C3's amended theorem at a concrete input: deleting a `File`
trace whose path does not exist succeeds with zero bytes freed. -/
theorem clean_missing_target_idempotent_witness :
    clean_traces [c3FileTrace] true emptyWorld =
      (.ok [⟨"t-c3f", "C:\\Temp\\GoneApp", true, none, 0⟩], emptyWorld) :=
  (clean_missing_target_idempotent emptyWorld c3FileTrace (by decide)).1
    (Or.inl rfl) (by decide)

/-- The source's first-minimum-by-score of a three-element slice is the
two-argument minimum folded left. -/
theorem lowest_eq_confMin (a b c : MetadataConfidence) :
    MetadataConfidence.lowest [a, b, c] = confMin (confMin a b) c := by
  cases a <;> cases b <;> cases c <;> decide

/-- C6 (confirmed): after `enrich_program`, the aggregate
`metadata_confidence` equals the minimum — the least confident under
`High > Medium > Low > Unknown` — of the three per-field confidences the
enrichment just assigned, for every environment behaviour and input
program. -/
theorem enrich_metadata_confidence_is_min (w : EnrichWorld) (p : InstalledProgram) :
    (enrich_program w p).metadata_confidence =
      confMin (confMin (enrich_program w p).install_date_confidence
          (enrich_program w p).icon_confidence)
        (enrich_program w p).size_confidence := by
  show (finalize_metadata _).metadata_confidence = _
  exact lowest_eq_confMin _ _ _

/-- A successful insertion loop appends exactly the given entries' payloads
to the accumulator, in order. -/
theorem insert_rows_payloads (env : StorageEnv) (now : String) :
    ∀ (entries : List InstalledProgram) (acc rows : List CacheRow),
      insert_rows env now entries acc = .ok rows →
      rows.map (fun r => r.payload) = acc.map (fun r => r.payload) ++ entries := by
  intro entries
  induction entries with
  | nil =>
      intro acc rows h
      injection h with h
      subst h
      simp
  | cons p rest ih =>
      intro acc rows h
      unfold insert_rows at h
      split at h
      · exact Except.noConfusion h
      · have := ih (acc ++ [⟨build_program_cache_key env p, p.name, p, now⟩]) rows h
        simpa [List.append_assoc] using this

/-- Parsing the schema version the writer stores recovers the constant. -/
theorem parse_u32_schema : parse_u32 (toString CACHE_SCHEMA_VERSION) = some CACHE_SCHEMA_VERSION := by
  decide

/-- C7 (amended): for every NONEMPTY inventory whose save succeeds (distinct
cache keys under the hash), reading the cache back within the TTL is a valid
hit whose entry multiset, compared by name, is exactly the saved list's.
(The unamended claim quantified over every list;
`cache_round_trip_empty_list_misses` shows the empty list reads back as a
`cache_empty` miss, which is what forces the nonemptiness restriction.) -/
theorem cache_round_trip_nonempty (env : StorageEnv) (now_str : String)
    (entries : List InstalledProgram) (db db' : CacheDb) (t0 nowRead ttl : Int)
    (hne : entries ≠ [])
    (hsave : save_scan_cache env now_str entries db = (.ok (), db'))
    (hparse : env.parse_rfc3339 now_str = some t0)
    (httl : nowRead - t0 ≤ ttl) :
    ∃ ps, (read_scan_cache env nowRead ttl db').entries = some ps ∧
      (read_scan_cache env nowRead ttl db').cache_hit = true ∧
      (read_scan_cache env nowRead ttl db').cache_valid = true ∧
      (ps.map fun p => p.name).Perm (entries.map fun p => p.name) := by
  unfold save_scan_cache at hsave
  cases hins : insert_rows env now_str entries [] with
  | error e => rw [hins] at hsave; exact absurd hsave (by simp)
  | ok rows =>
      rw [hins] at hsave
      have hdb' : db' = ⟨true, rows, some (toString CACHE_SCHEMA_VERSION), some now_str⟩ := by
        have h2 := congrArg Prod.snd hsave
        simpa using h2.symm
      have hrows : rows.map (fun r => r.payload) = entries := by
        simpa using insert_rows_payloads env now_str entries [] rows hins
      subst hdb'
      have hnotexp : ¬ (nowRead - t0 > max ttl 1) := by
        have h1 : ttl ≤ max ttl 1 := le_max_left ttl 1
        linarith
      have hperm :
          ((List.insertionSort cacheRowLe rows).map (fun r => r.payload)).Perm entries := by
        have := (List.perm_insertionSort cacheRowLe rows).map (fun r => r.payload)
        rwa [hrows] at this
      have hpn : (List.insertionSort cacheRowLe rows).map (fun r => r.payload) ≠ [] := by
        intro hpe
        exact hne ((hpe ▸ hperm).symm.eq_nil)
      refine ⟨_, ?_, ?_, ?_, hperm.map (fun p => p.name)⟩ <;>
        simp [read_scan_cache, parse_u32_schema, hparse, hnotexp, dflScanCacheReadResult,
          List.isEmpty_iff, hpn]

/-- C7 counterexample: saving the EMPTY list succeeds, yet reading it back
immediately (well within the TTL, schema current) is not a valid hit — the
decoded row set is empty, so the read reports `cache_empty` with
`cache_hit = false`, against the claim's unrestricted quantification. -/
theorem cache_round_trip_empty_list_misses :
    (save_scan_cache envStorage0 "2026-01-01T00:00:00Z" [] emptyCacheDb).1 = .ok () ∧
    read_scan_cache envStorage0 10 900
        (save_scan_cache envStorage0 "2026-01-01T00:00:00Z" [] emptyCacheDb).2 =
      ⟨none, false, false, 4, some "2026-01-01T00:00:00Z", some "cache_empty"⟩ := by
  decide

/-- Witness for C7's amended theorem: a singleton inventory round-trips as a
valid hit with the same name set. -/
theorem cache_round_trip_nonempty_witness :
    ∃ ps, (read_scan_cache envStorage0 10 900 c7SavedDb).entries = some ps ∧
      (read_scan_cache envStorage0 10 900 c7SavedDb).cache_hit = true ∧
      (read_scan_cache envStorage0 10 900 c7SavedDb).cache_valid = true ∧
      (ps.map fun p => p.name).Perm ([c7Program].map fun p => p.name) :=
  cache_round_trip_nonempty envStorage0 "2026-01-01T00:00:00Z" [c7Program] emptyCacheDb
    c7SavedDb 0 10 900 (by decide) (by decide) (by decide) (by decide)

/-- C8 counterexample: with the cache file present, the schema current, and
the `generated_at` metadata row ABSENT, the read reports the reason
`cache_missing_generated_at` — a sixth reason outside the claim's
five-element set (the claim's `cache_invalid_generated_at` covers only a
present-but-unparseable timestamp). -/
theorem cache_reason_missing_generated_at_outside_claimed_set :
    (read_scan_cache envStorage0 0 900 c8Db).reason = some "cache_missing_generated_at" ∧
    (read_scan_cache envStorage0 0 900 c8Db).cache_hit = false ∧
    "cache_missing_generated_at" ∉ C8_CLAIMED_REASONS := by
  decide

/-- Every reason the amended-claim condition function can report is in the
amended six-element set. -/
theorem c8_expected_mem (env : StorageEnv) (now ttl : Int) (db : CacheDb) :
    ∀ r, c8_expected_reason env now ttl db = some r → r ∈ C8_AMENDED_REASONS := by
  intro r hr
  unfold c8_expected_reason at hr
  repeat' split at hr
  all_goals first
    | (injection hr with hr; subst hr; decide)
    | exact Option.noConfusion hr

/-- The decoded program list of a read is empty exactly when the row table
is. -/
theorem read_programs_isEmpty (db : CacheDb) :
    ((List.insertionSort cacheRowLe db.rows).map (fun r => r.payload)).isEmpty
      = db.rows.isEmpty := by
  have hlen := (List.perm_insertionSort cacheRowLe db.rows).length_eq
  rcases hr : db.rows with _ | ⟨a, l⟩
  · rw [hr] at hlen
    cases hs : List.insertionSort cacheRowLe [] with
    | nil => simp
    | cons b m => rw [hs] at hlen; simp at hlen
  · rw [hr] at hlen
    cases hs : List.insertionSort cacheRowLe (a :: l) with
    | nil => rw [hs] at hlen; simp at hlen
    | cons b m => rw [hs] at hlen; simp

/-- Case analysis core for C8: the read's reason equals the condition
function, and a hit occurs exactly when no reason applies. -/
theorem read_reason_hit (env : StorageEnv) (now ttl : Int) (db : CacheDb) :
    (read_scan_cache env now ttl db).reason = c8_expected_reason env now ttl db ∧
    ((read_scan_cache env now ttl db).cache_hit = true ↔
      c8_expected_reason env now ttl db = none) := by
  have hie := read_programs_isEmpty db
  cases hfe : db.file_exists with
  | false => simp [read_scan_cache, c8_expected_reason, hfe, dflScanCacheReadResult]
  | true =>
    by_cases hsv : ((db.meta_schema_version.bind parse_u32).getD 0) = CACHE_SCHEMA_VERSION
    · cases hg : db.meta_generated_at with
      | none => simp [read_scan_cache, c8_expected_reason, hfe, hsv, hg, dflScanCacheReadResult]
      | some g =>
        cases hp : env.parse_rfc3339 g with
        | none =>
            simp [read_scan_cache, c8_expected_reason, hfe, hsv, hg, hp, dflScanCacheReadResult]
        | some t =>
          by_cases hexp : now - t > max ttl 1
          · simp [read_scan_cache, c8_expected_reason, hfe, hsv, hg, hp, hexp,
              dflScanCacheReadResult]
          · by_cases hemp : db.rows.isEmpty = true
            · simp [read_scan_cache, c8_expected_reason, hfe, hsv, hg, hp, hexp, hie, hemp,
                dflScanCacheReadResult]
            · simp [read_scan_cache, c8_expected_reason, hfe, hsv, hg, hp, hexp, hie, hemp,
                dflScanCacheReadResult]
    · simp [read_scan_cache, c8_expected_reason, hfe, hsv, dflScanCacheReadResult]

/-- C8 (amended): every read that is not a valid hit reports exactly one
reason, drawn from the SIX-element set that adds `cache_missing_generated_at`
(timestamp metadata absent) to the claim's five
(`cache_invalid_generated_at` remains the present-but-unparseable case);
each reason is reported precisely when its guard-ordered condition holds
(`c8_expected_reason`), and `cache_hit = true` exactly when none does. -/
theorem cache_read_reason_precise (env : StorageEnv) (now ttl : Int) (db : CacheDb) :
    (read_scan_cache env now ttl db).reason = c8_expected_reason env now ttl db ∧
    ((read_scan_cache env now ttl db).cache_hit = true ↔
      c8_expected_reason env now ttl db = none) ∧
    (∀ r, (read_scan_cache env now ttl db).reason = some r → r ∈ C8_AMENDED_REASONS) := by
  obtain ⟨h1, h2⟩ := read_reason_hit env now ttl db
  refine ⟨h1, h2, fun r hr => ?_⟩
  exact c8_expected_mem env now ttl db r (h1 ▸ hr)

/-- Witness for C8's amended theorem at a concrete input: the absent
timestamp case reports its dedicated reason, matching the condition
function, and the reason is in the amended set. -/
theorem cache_read_reason_precise_witness :
    (read_scan_cache envStorage0 0 900 c8Db).reason = c8_expected_reason envStorage0 0 900 c8Db ∧
    "cache_missing_generated_at" ∈ C8_AMENDED_REASONS :=
  ⟨(cache_read_reason_precise envStorage0 0 900 c8Db).1,
   (cache_read_reason_precise envStorage0 0 900 c8Db).2.2 "cache_missing_generated_at"
     (by decide)⟩

/-- C9 (confirmed): a non-positive TTL never disables the cache — the default
TTL constant is 900 seconds, `list_programs_with_cache` behaves on a query
with `cache_ttl_seconds ≤ 0` exactly as on the same query with the default
TTL substituted before the cache is consulted, and `read_scan_cache`
additionally clamps any TTL below 1 to 1 second for the expiry
comparison. -/
theorem lister_ttl_defaults_and_clamp (env : ListerEnv) (q : ListProgramsQuery) (db : CacheDb)
    (now ttl' : Int) (dbx : CacheDb) (hq : q.cache_ttl_seconds ≤ 0) (ht : ttl' < 1) :
    DEFAULT_CACHE_TTL_SECONDS = 900 ∧
    list_programs_with_cache env q db =
      list_programs_with_cache env { q with cache_ttl_seconds := DEFAULT_CACHE_TTL_SECONDS } db ∧
    read_scan_cache env.storage now ttl' dbx = read_scan_cache env.storage now 1 dbx := by
  refine ⟨rfl, ?_, ?_⟩
  · unfold list_programs_with_cache
    rw [if_pos hq,
      if_neg (show ¬ (({ q with cache_ttl_seconds := DEFAULT_CACHE_TTL_SECONDS } :
        ListProgramsQuery).cache_ttl_seconds ≤ 0) from
        (by decide : ¬ ((DEFAULT_CACHE_TTL_SECONDS : Int) ≤ 0)))]
  · unfold read_scan_cache
    rw [show max ttl' 1 = max 1 1 from by rw [max_self, max_eq_right (le_of_lt ht)]]

/-- Witness for C9 at a concrete input: the default query (TTL 0) and a TTL
of 0 at the read layer. -/
theorem lister_ttl_defaults_and_clamp_witness :
    DEFAULT_CACHE_TTL_SECONDS = 900 ∧
    list_programs_with_cache lister0 {} emptyCacheDb =
      list_programs_with_cache lister0
        { ({} : ListProgramsQuery) with cache_ttl_seconds := DEFAULT_CACHE_TTL_SECONDS }
        emptyCacheDb ∧
    read_scan_cache lister0.storage 0 0 emptyCacheDb =
      read_scan_cache lister0.storage 0 1 emptyCacheDb :=
  lister_ttl_defaults_and_clamp lister0 {} emptyCacheDb 0 0 emptyCacheDb
    (by decide) (by decide)

/-- C10 (confirmed): the system-directory exclusion is a substring test on
the whole uppercased path — every trace `scan_filesystem_traces` returns has
a path on which `is_system_dir` is false, so any name-matched walk entry
whose full path contains one of the six markers anywhere is omitted; and the
test indeed fires on innocent containers such as a folder named
`Information` (contains `INF`) or `MyDrivers` (contains `DRIVERS`). -/
theorem fs_scanner_system_dir_substring_exclusion (env : ScanFsEnv) (pattern : String)
    (t : Trace) (h : t ∈ scan_filesystem_traces env pattern) :
    is_system_dir t.path = false ∧
    is_system_dir "C:\\Users\\Public\\Documents\\Information\\MyApp" = true ∧
    is_system_dir "C:\\Program Files\\MyDrivers" = true := by
  refine ⟨?_, by decide, by decide⟩
  unfold scan_filesystem_traces at h
  obtain ⟨r, hrmem, hr⟩ := List.mem_flatMap.mp h
  unfold scan_directory at hr
  obtain ⟨e, hemem, he⟩ := List.mem_filterMap.mp hr
  simp only [scan_entry] at he
  repeat' split at he
  all_goals first
    | exact Option.noConfusion he
    | (injection he with he; subst he; simp_all)

/-- Witness for C10 at a concrete input: the single walk entry under
`C:\Program Files` produces a trace whose path fails the system-directory
test, while the two marker-containing paths pass it. -/
theorem fs_scanner_system_dir_substring_exclusion_witness :
    is_system_dir "C:\\Program Files\\DemoApp" = false ∧
    is_system_dir "C:\\Users\\Public\\Documents\\Information\\MyApp" = true :=
  ⟨(fs_scanner_system_dir_substring_exclusion env10 "DemoApp" c10Trace (by decide)).1,
   (fs_scanner_system_dir_substring_exclusion env10 "DemoApp" c10Trace (by decide)).2.1⟩
